import Mathlib

/-
Verification of the Riemannian Staircase controller (function SESync) and the
saddle-escape backtracking search (function escape_saddle) of
src/C++/SE-Sync/src/SESync.cpp, against the natural-language specification.

Modelling conventions:
- Eigen matrices of doubles become lists of rows with rational entries;
  floating-point rounding is out of scope, the control flow is the object of
  study.
- The external collaborators (SESyncProblem, the TNT trust-region solver, the
  stopwatch) are abstract oracles passed as arguments; the controller is a
  pure function of those oracles.
- The mutable relaxation rank of the problem object is threaded explicitly as
  a natural number; the pair returned by SESyncFull exposes the final value of
  that state together with the SESyncResult the C++ function returns.
-/

/-- Matrices represented as lists of rows with rational entries (the C++ code
uses dense Eigen matrices of doubles). -/
abbrev Mat : Type := List (List ℚ)

/-- Number of columns of a matrix, read off the first row; SESync.cpp only
builds rectangular matrices. -/
def numCols (Y : Mat) : ℕ := (Y.headD []).length

/-- A row of zeros, as produced by the Matrix Zero blocks in SESync.cpp. -/
def zeroRow (n : ℕ) : List ℚ := List.replicate n 0

/-- Total number of scalar entries, the analogue of the Eigen size() call used
in the test Y0.size() != 0 at SESync.cpp line 211. -/
def matSize (Y : Mat) : ℕ := (Y.map List.length).sum

/-- Scalar multiple of a matrix (alpha * Ydot at SESync.cpp line 496). -/
def smulMat (a : ℚ) (M : Mat) : Mat := M.map (List.map (fun x => a * x))

/-- The matrix built at SESync.cpp lines 475-476: a zero matrix of shape
r x cols whose top r-1 rows are overwritten with the rows of Y. -/
def assignTopRows (r cols : ℕ) (Y : Mat) : Mat :=
  (List.range r).map (fun i => if i < r - 1 then Y.getD i [] else zeroRow cols)

/-- The matrix built at SESync.cpp lines 478-479: a zero matrix of shape
r x cols whose bottom row is overwritten with the transpose of v_min. -/
def assignBottomRow (r cols : ℕ) (v : List ℚ) : Mat :=
  (List.range r).map (fun i => if i = r - 1 then v else zeroRow cols)

/-- Termination statuses of the Riemannian Staircase, SESync_types.h names as
used in SESync.cpp (the spec calls them GLOBAL_OPTIMUM, SADDLE_ESCAPE_FAILED,
EIGENVALUE_IMPRECISE and RANK_LIMIT_REACHED respectively). -/
inductive SESyncStatus : Type
  | GLOBAL_OPT : SESyncStatus
  | SADDLE_POINT : SESyncStatus
  | EIG_IMPRECISION : SESyncStatus
  | RS_ITER_LIMIT : SESyncStatus
deriving DecidableEq

/-- Problem formulation selector (SESync.cpp lines 35-38 and 422-426). -/
inductive Formulation : Type
  | Simplified : Formulation
  | Explicit : Formulation
deriving DecidableEq

/-- The options consumed by the staircase control flow (the verbosity,
threading and solver-internal options are absorbed into the solver oracle). -/
structure SESyncOpts : Type where
  r0 : ℕ
  rmax : ℕ
  grad_norm_tol : ℚ
  min_eig_num_tol : ℚ
  max_eig_iterations : ℕ
  num_Lanczos_vectors : ℕ
  use_chordal_initialization : Bool
  formulation : Formulation

/-- Outcome of one invocation of the external TNT trust-region solver
(SESync.cpp lines 277-295): final iterate, final objective value, and the
per-iteration traces that the controller archives. -/
structure TNTOutcome : Type where
  x : Mat
  f : ℚ
  objective_values : List ℚ
  gradient_norms : List ℚ
  time : List ℚ

/-- The SESyncResult record accumulated by the controller.  Wall-clock fields
that no claim touches (initialization_time, total_computation_time) and the
optional iterate log are omitted. -/
structure SESyncResult : Type where
  status : SESyncStatus
  Yopt : Mat
  SDPval : ℚ
  gradnorm : ℚ
  lambda_min : ℚ
  v_min : List ℚ
  function_values : List (List ℚ)
  gradient_norms : List (List ℚ)
  elapsed_optimization_times : List (List ℚ)
  minimum_eigenvalues : List ℚ
  minimum_eigenvalue_computation_times : List ℚ
  xhat : Mat
  Fxhat : ℚ

/-- The external SESyncProblem collaborator, abstracted as a bundle of pure
functions.  Each operation takes the current relaxation rank first, modelling
the dependence of the mutable problem object on set_relaxation_rank. -/
structure ProblemOracle : Type where
  evaluate_objective : ℕ → Mat → ℚ
  riemannian_grad_norm : ℕ → Mat → ℚ
  retract : ℕ → Mat → Mat → Mat
  chordal_initialization : Mat
  random_sample : Mat
  round_solution : ℕ → Mat → Mat
  min_eig : ℕ → Mat → ℕ → ℚ → ℕ → Option (ℚ × List ℚ)
  num_poses : ℕ
  dimension : ℕ

/-- Initial step length of the escape line search, SESync.cpp line 485:
alpha = 2 * 100 * gradient_tolerance / fabs(lambda_min). -/
def escapeAlpha0 (tol lam : ℚ) : ℚ := 2 * 100 * tol / |lam|

/-- Minimum step size of the escape line search, SESync.cpp line 486. -/
def alpha_min : ℚ := 1 / 1000000

/-- Trial point of the backtracking search: retraction of the augmented point
along alpha times the augmented tangent direction (SESync.cpp line 496). -/
def escapeTrialPoint (prob : ProblemOracle) (prank : ℕ) (Y : Mat) (v : List ℚ) (a : ℚ) : Mat :=
  prob.retract prank (assignTopRows prank (numCols Y) Y)
    (smulMat a (assignBottomRow prank (numCols Y) v))

/-- Acceptance test of the backtracking search, SESync.cpp line 505: the trial
point must strictly decrease the objective below its value at the saddle point
Y, and its Riemannian gradient norm must exceed the gradient tolerance. -/
def escapeAccept (prob : ProblemOracle) (prank : ℕ) (Y : Mat) (v : List ℚ) (tol : ℚ) (a : ℚ) : Bool :=
  decide (prob.evaluate_objective prank (escapeTrialPoint prob prank Y v a) <
      prob.evaluate_objective prank Y) &&
  decide (tol < prob.riemannian_grad_norm prank (escapeTrialPoint prob prank Y v a))

/-- The do-while backtracking loop of escape_saddle, SESync.cpp lines 492-507:
halve alpha, test the trial point, stop with acceptance on success and stop
with failure once alpha is at or below alpha_min.  The fuel argument is a
structural bound on the number of halvings; escape_saddle supplies enough fuel
that the alpha_min floor test always fires before the fuel runs out. -/
def backtrack (acc : ℚ → Bool) : ℕ → ℚ → Option ℚ
  | 0, _ => none
  | fuel + 1, alpha =>
    if acc (alpha / 2) then some (alpha / 2)
    else if alpha_min < alpha / 2 then backtrack acc fuel (alpha / 2)
    else none

/-- Fuel bound for the backtracking loop: ceil(alpha * 10^6) + 2 halvings are
guaranteed to bring the step to or below alpha_min. -/
def escFuel (a : ℚ) : ℕ := ⌈a * 1000000⌉₊ + 2

/-- Shallow embedding of escape_saddle, SESync.cpp lines 452-517.  The
argument prank is problem.relaxation_rank(), which the controller advanced to
r + 1 before the call (SESync.cpp line 358); escape_saddle reads it at line
471 as the number of rows of the augmented iterate. -/
def escape_saddle (prob : ProblemOracle) (prank : ℕ) (Y : Mat) (lam : ℚ) (v : List ℚ) (tol : ℚ) : Option Mat :=
  match backtrack (escapeAccept prob prank Y v tol)
      (escFuel (escapeAlpha0 tol lam)) (escapeAlpha0 tol lam) with
  | some a => some (escapeTrialPoint prob prank Y v a)
  | none => none

/-- Book-keeping after one solver invocation, SESync.cpp lines 283-295: store
the optimum, its objective value and gradient norm, and append the solver
traces for this rank. -/
def recordSolve (prob : ProblemOracle) (r : ℕ) (t : TNTOutcome) (res : SESyncResult) : SESyncResult :=
  { res with
    Yopt := t.x
    SDPval := t.f
    gradnorm := prob.riemannian_grad_norm r t.x
    function_values := res.function_values ++ [t.objective_values]
    gradient_norms := res.gradient_norms ++ [t.gradient_norms]
    elapsed_optimization_times := res.elapsed_optimization_times ++ [t.time] }

/-- Book-keeping after a converged eigenvalue computation, SESync.cpp lines
313-331: store the eigenpair and append the per-rank eigenvalue traces. -/
def recordEig (eigTime : ℕ → ℚ) (r : ℕ) (lam : ℚ) (v : List ℚ) (res : SESyncResult) : SESyncResult :=
  { res with
    lambda_min := lam
    v_min := v
    minimum_eigenvalues := res.minimum_eigenvalues ++ [lam]
    minimum_eigenvalue_computation_times :=
      res.minimum_eigenvalue_computation_times ++ [eigTime r] }

/-- The Riemannian Staircase loop, SESync.cpp lines 262-376.  The fuel
argument counts the remaining loop iterations (r ranges over r0..rmax, so the
top-level call passes rmax + 1 - r0); the second component of the returned
pair is the final relaxation rank held by the mutable problem object. -/
def staircaseLoop (prob : ProblemOracle) (solver : ℕ → Mat → TNTOutcome)
    (eigTime : ℕ → ℚ) (opts : SESyncOpts) :
    ℕ → ℕ → Mat → SESyncResult → SESyncResult × ℕ
  | 0, r, _, res => (res, r)
  | fuel + 1, r, Y, res =>
    match prob.min_eig r (solver r Y).x opts.max_eig_iterations
        opts.min_eig_num_tol opts.num_Lanczos_vectors with
    | none =>
      ({ recordSolve prob r (solver r Y) res with status := SESyncStatus.EIG_IMPRECISION }, r)
    | some (lam, v) =>
      if -opts.min_eig_num_tol < lam then
        ({ recordEig eigTime r lam v (recordSolve prob r (solver r Y) res) with
            status := SESyncStatus.GLOBAL_OPT }, r)
      else
        match escape_saddle prob (r + 1) (solver r Y).x lam v opts.grad_norm_tol with
        | some Yplus =>
          staircaseLoop prob solver eigTime opts fuel (r + 1) Yplus
            (recordEig eigTime r lam v (recordSolve prob r (solver r Y) res))
        | none =>
          ({ recordEig eigTime r lam v (recordSolve prob r (solver r Y) res) with
              status := SESyncStatus.SADDLE_POINT }, r + 1)

/-- The result record as default-constructed and pre-set at SESync.cpp lines
24-25: status RS_ITER_LIMIT, all traces empty, the iterate empty. -/
def initResult : SESyncResult :=
  { status := SESyncStatus.RS_ITER_LIMIT
    Yopt := []
    SDPval := 0
    gradnorm := 0
    lambda_min := 0
    v_min := []
    function_values := []
    gradient_norms := []
    elapsed_optimization_times := []
    minimum_eigenvalues := []
    minimum_eigenvalue_computation_times := []
    xhat := []
    Fxhat := 0 }

/-- Choice of the initial iterate, SESync.cpp lines 211-234: a nonempty
user-supplied Y0 is used verbatim, otherwise the problem supplies a chordal or
random initialization according to the option. -/
def initialIterate (prob : ProblemOracle) (opts : SESyncOpts) (Y0 : Mat) : Mat :=
  if matSize Y0 ≠ 0 then Y0
  else if opts.use_chordal_initialization then prob.chordal_initialization
  else prob.random_sample

/-- The block xhat.block(0, num_poses, dimension, dimension * num_poses) of
SESync.cpp lines 423-425: the rotation block of the rounded solution. -/
def blockSimplified (prob : ProblemOracle) (M : Mat) : Mat :=
  (M.take prob.dimension).map
    (fun row => (row.drop prob.num_poses).take (prob.dimension * prob.num_poses))

/-- Shallow embedding of the whole SESync function, SESync.cpp lines 12-450:
initialization, the staircase loop, and the rounding post-processing that runs
regardless of the termination status.  The second component of the result is
the final relaxation rank of the problem object (the rank is r0 after the
set_relaxation_rank call at line 107 and is only changed at line 358). -/
def SESyncFull (prob : ProblemOracle) (solver : ℕ → Mat → TNTOutcome)
    (eigTime : ℕ → ℚ) (opts : SESyncOpts) (Y0 : Mat) : SESyncResult × ℕ :=
  match staircaseLoop prob solver eigTime opts (opts.rmax + 1 - opts.r0) opts.r0
      (initialIterate prob opts Y0) initResult with
  | (res, rf) =>
    ({ res with
        xhat := prob.round_solution rf res.Yopt
        Fxhat :=
          if opts.formulation = Formulation.Simplified then
            prob.evaluate_objective rf (blockSimplified prob (prob.round_solution rf res.Yopt))
          else
            prob.evaluate_objective rf (prob.round_solution rf res.Yopt) }, rf)

/-
Concrete oracle instances used to exhibit runs of the controller.
-/

/-- A degenerate problem oracle on which every saddle escape fails: the
objective is constantly zero, so no trial point can strictly decrease it, and
the certificate always reports the eigenpair (-1, [1]). -/
def cProbFail : ProblemOracle :=
  { evaluate_objective := fun _ _ => 0
    riemannian_grad_norm := fun _ _ => 0
    retract := fun _ _ _ => []
    chordal_initialization := [[1]]
    random_sample := [[2]]
    round_solution := fun _ _ => []
    min_eig := fun _ _ _ _ _ => some (-1, [1])
    num_poses := 1
    dimension := 1 }

/-- A problem oracle whose certificate always reports eigenvalue 0. -/
def cProbGlob : ProblemOracle :=
  { cProbFail with min_eig := fun _ _ _ _ _ => some (0, []) }

/-- A trivial solver oracle returning its starting point unchanged. -/
def cSolver : ℕ → Mat → TNTOutcome :=
  fun _ Y => { x := Y, f := 0, objective_values := [0], gradient_norms := [0], time := [0] }

/-- A trivial timing oracle. -/
def cTime : ℕ → ℚ := fun _ => 0

/-- Options with r0 = 1 and rmax = 3, eigenvalue tolerance 1 and a tiny
gradient tolerance, so the very first escape trial step is already at the
alpha_min floor. -/
def cOptsFail : SESyncOpts :=
  { r0 := 1
    rmax := 3
    grad_norm_tol := 1 / 100000000
    min_eig_num_tol := 1
    max_eig_iterations := 10
    num_Lanczos_vectors := 5
    use_chordal_initialization := true
    formulation := Formulation.Simplified }

/-- Options whose starting rank exceeds the maximum rank. -/
def cOptsSmall : SESyncOpts := { cOptsFail with r0 := 2, rmax := 1 }

/-
Lemmas about the backtracking loop of escape_saddle.
-/

lemma div_two_pow (a : ℚ) (j : ℕ) : a / 2 / 2 ^ j = a / 2 ^ (j + 1) := by
  rw [div_div, pow_succ, mul_comm]

/-- Characterization of a successful backtracking search: the returned step is
the first trial step accepted, and every earlier trial step was rejected while
still above the floor. -/
lemma backtrack_some (acc : ℚ → Bool) :
    ∀ fuel alpha a, backtrack acc fuel alpha = some a →
      ∃ k, a = alpha / 2 ^ (k + 1) ∧ acc (alpha / 2 ^ (k + 1)) = true ∧
        ∀ j, j < k → acc (alpha / 2 ^ (j + 1)) = false ∧ alpha_min < alpha / 2 ^ (j + 1) := by
  intro fuel
  induction fuel with
  | zero => intro alpha a h; simp [backtrack] at h
  | succ n ih =>
    intro alpha a h
    simp only [backtrack] at h
    by_cases h0 : acc (alpha / 2) = true
    · rw [if_pos h0] at h
      refine ⟨0, ?_, ?_, ?_⟩
      · simpa [pow_one] using (Option.some_injective _ h).symm
      · simpa [pow_one] using h0
      · intro j hj; omega
    · rw [if_neg h0] at h
      by_cases h1 : alpha_min < alpha / 2
      · rw [if_pos h1] at h
        obtain ⟨k, hk1, hk2, hk3⟩ := ih (alpha / 2) a h
        refine ⟨k + 1, ?_, ?_, ?_⟩
        · rw [hk1, div_two_pow]
        · rw [← div_two_pow]; exact hk2
        · intro j hj
          cases j with
          | zero =>
            constructor
            · simpa [pow_one] using (Bool.not_eq_true (acc (alpha / 2))).mp h0
            · simpa [pow_one] using h1
          | succ j =>
            have hj2 : j < k := by omega
            constructor
            · rw [← div_two_pow]; exact (hk3 j hj2).1
            · rw [← div_two_pow]; exact (hk3 j hj2).2
      · rw [if_neg h1] at h; exact absurd h (by simp)

/-- A failed backtracking search either genuinely reached the floor with all
trials rejected, or ran out of fuel with all trials rejected and above the
floor. -/
lemma backtrack_none_rec (acc : ℚ → Bool) :
    ∀ fuel alpha, backtrack acc fuel alpha = none →
      (∃ K, alpha / 2 ^ (K + 1) ≤ alpha_min ∧
        (∀ j, j < K → alpha_min < alpha / 2 ^ (j + 1)) ∧
        (∀ j, j ≤ K → acc (alpha / 2 ^ (j + 1)) = false)) ∨
      (∀ j, j < fuel → acc (alpha / 2 ^ (j + 1)) = false ∧ alpha_min < alpha / 2 ^ (j + 1)) := by
  intro fuel
  induction fuel with
  | zero => intro alpha _; right; intro j hj; omega
  | succ n ih =>
    intro alpha h
    simp only [backtrack] at h
    by_cases h0 : acc (alpha / 2) = true
    · rw [if_pos h0] at h; exact absurd h (by simp)
    · rw [if_neg h0] at h
      have h0f : acc (alpha / 2) = false := (Bool.not_eq_true (acc (alpha / 2))).mp h0
      by_cases h1 : alpha_min < alpha / 2
      · rw [if_pos h1] at h
        rcases ih (alpha / 2) h with ⟨K, hK1, hK2, hK3⟩ | hall
        · left
          refine ⟨K + 1, ?_, ?_, ?_⟩
          · rw [← div_two_pow]; exact hK1
          · intro j hj
            cases j with
            | zero => simpa [pow_one] using h1
            | succ j => rw [← div_two_pow]; exact hK2 j (by omega)
          · intro j hj
            cases j with
            | zero => simpa [pow_one] using h0f
            | succ j => rw [← div_two_pow]; exact hK3 j (by omega)
        · right
          intro j hj
          cases j with
          | zero => exact ⟨by simpa [pow_one] using h0f, by simpa [pow_one] using h1⟩
          | succ j =>
            have := hall j (by omega)
            exact ⟨by rw [← div_two_pow]; exact this.1, by rw [← div_two_pow]; exact this.2⟩
      · rw [if_neg h1] at h
        left
        refine ⟨0, ?_, ?_, ?_⟩
        · simpa [pow_one] using not_lt.mp h1
        · intro j hj; omega
        · intro j hj
          have : j = 0 := by omega
          subst this
          simpa [pow_one] using h0f

lemma backtrack_none_of (acc : ℚ → Bool) :
    ∀ fuel alpha K, alpha / 2 ^ (K + 1) ≤ alpha_min →
      (∀ j, j < K → alpha_min < alpha / 2 ^ (j + 1)) →
      (∀ j, j ≤ K → acc (alpha / 2 ^ (j + 1)) = false) →
      backtrack acc fuel alpha = none := by
  intro fuel
  induction fuel with
  | zero => intro alpha K _ _ _; simp [backtrack]
  | succ n ih =>
    intro alpha K hK hfl hacc
    have h0 : acc (alpha / 2) = false := by
      simpa [pow_one] using hacc 0 (Nat.zero_le K)
    simp only [backtrack]
    rw [if_neg (by simp [h0])]
    cases K with
    | zero =>
      rw [if_neg (not_lt.mpr (by simpa [pow_one] using hK))]
    | succ K =>
      rw [if_pos (by simpa [pow_one] using hfl 0 (Nat.succ_pos K))]
      apply ih (alpha / 2) K
      · rw [div_two_pow]; exact hK
      · intro j hj; rw [div_two_pow]; exact hfl (j + 1) (by omega)
      · intro j hj; rw [div_two_pow]; exact hacc (j + 1) (by omega)

/-- The fuel supplied by escape_saddle is always sufficient: after escFuel a
halvings the step length is at or below the floor. -/
lemma escFuel_spec (a : ℚ) : a / 2 ^ escFuel a ≤ alpha_min := by
  have h2 : (0 : ℚ) < 2 ^ escFuel a := by positivity
  rcases le_or_lt a 0 with ha | ha
  · have h3 : a / 2 ^ escFuel a ≤ 0 := div_nonpos_iff.mpr (Or.inr ⟨ha, h2.le⟩)
    have h4 : (0 : ℚ) ≤ alpha_min := by norm_num [alpha_min]
    linarith
  · rw [div_le_iff₀ h2]
    have hceil : a * 1000000 ≤ (⌈a * 1000000⌉₊ : ℚ) := Nat.le_ceil _
    have hpow : ((⌈a * 1000000⌉₊ : ℕ) : ℚ) < 2 ^ ⌈a * 1000000⌉₊ := by
      exact_mod_cast Nat.lt_two_pow ⌈a * 1000000⌉₊
    have hmono : (2 : ℚ) ^ ⌈a * 1000000⌉₊ ≤ 2 ^ (⌈a * 1000000⌉₊ + 2) := by
      apply pow_le_pow_right₀ (by norm_num)
      omega
    show a ≤ alpha_min * 2 ^ (⌈a * 1000000⌉₊ + 2)
    rw [show alpha_min = 1 / 1000000 from rfl]
    linarith

/-- escape_saddle fails exactly when the step length reaches the alpha_min
floor with every trial before and at the floor rejected. -/
lemma escape_saddle_none_iff (prob : ProblemOracle) (prank : ℕ) (Y : Mat)
    (lam : ℚ) (v : List ℚ) (tol : ℚ) :
    escape_saddle prob prank Y lam v tol = none ↔
      ∃ K, escapeAlpha0 tol lam / 2 ^ (K + 1) ≤ alpha_min ∧
        (∀ j, j < K → alpha_min < escapeAlpha0 tol lam / 2 ^ (j + 1)) ∧
        (∀ j, j ≤ K →
          escapeAccept prob prank Y v tol (escapeAlpha0 tol lam / 2 ^ (j + 1)) = false) := by
  constructor
  · intro h
    rcases hb : backtrack (escapeAccept prob prank Y v tol)
        (escFuel (escapeAlpha0 tol lam)) (escapeAlpha0 tol lam) with _ | a
    · rcases backtrack_none_rec _ _ _ hb with ⟨K, hK1, hK2, hK3⟩ | hall
      · exact ⟨K, hK1, hK2, hK3⟩
      · exfalso
        have hlt := (hall (escFuel (escapeAlpha0 tol lam) - 1)
          (by unfold escFuel; omega)).2
        rw [show escFuel (escapeAlpha0 tol lam) - 1 + 1 = escFuel (escapeAlpha0 tol lam) by
          unfold escFuel; omega] at hlt
        exact absurd (escFuel_spec (escapeAlpha0 tol lam)) (not_le.mpr hlt)
    · exfalso
      rw [escape_saddle, hb] at h
      exact absurd h (by simp)
  · intro ⟨K, hK1, hK2, hK3⟩
    rw [escape_saddle, backtrack_none_of _ _ _ K hK1 hK2 hK3]

/-- A successful escape returns the retraction at the first accepted trial
step; all earlier trials were rejected with steps above the floor. -/
lemma escape_saddle_some (prob : ProblemOracle) (prank : ℕ) (Y : Mat)
    (lam : ℚ) (v : List ℚ) (tol : ℚ) (Yp : Mat)
    (h : escape_saddle prob prank Y lam v tol = some Yp) :
    ∃ k, Yp = escapeTrialPoint prob prank Y v (escapeAlpha0 tol lam / 2 ^ (k + 1)) ∧
      escapeAccept prob prank Y v tol (escapeAlpha0 tol lam / 2 ^ (k + 1)) = true ∧
      ∀ j, j < k →
        escapeAccept prob prank Y v tol (escapeAlpha0 tol lam / 2 ^ (j + 1)) = false ∧
        alpha_min < escapeAlpha0 tol lam / 2 ^ (j + 1) := by
  rcases hb : backtrack (escapeAccept prob prank Y v tol)
      (escFuel (escapeAlpha0 tol lam)) (escapeAlpha0 tol lam) with _ | a
  · rw [escape_saddle, hb] at h
    exact absurd h (by simp)
  · rw [escape_saddle, hb] at h
    obtain ⟨k, hk1, hk2, hk3⟩ := backtrack_some _ _ _ _ hb
    refine ⟨k, ?_, hk2, hk3⟩
    have := (Option.some_injective _ h).symm
    rw [this, hk1]

/-
Lemmas about the augmented point and escape direction.
-/

/-- When Y has exactly r - 1 rows, the Eigen block assignment at SESync.cpp
lines 475-476 produces Y with one zero row appended. -/
lemma assignTopRows_eq_append (r cols : ℕ) (Y : Mat)
    (h1 : Y.length = r - 1) (h2 : 1 ≤ r) :
    assignTopRows r cols Y = Y ++ [zeroRow cols] := by
  obtain ⟨n, rfl⟩ : ∃ n, r = n + 1 := ⟨r - 1, by omega⟩
  simp only [Nat.add_sub_cancel] at h1
  unfold assignTopRows
  rw [List.range_succ, List.map_append]
  simp only [Nat.add_sub_cancel]
  congr 1
  · apply List.ext_getElem
    · simp [h1]
    · intro i hi1 hi2
      simp only [List.getElem_map, List.getElem_range]
      have hin : i < n := by simpa using hi1
      rw [if_pos hin, List.getD_eq_getElem]
  · simp

/-- The Eigen bottom-row assignment at SESync.cpp lines 478-479 produces a
matrix of zero rows with the eigenvector as its last row. -/
lemma assignBottomRow_eq_append (r cols : ℕ) (v : List ℚ) (h2 : 1 ≤ r) :
    assignBottomRow r cols v = List.replicate (r - 1) (zeroRow cols) ++ [v] := by
  obtain ⟨n, rfl⟩ : ∃ n, r = n + 1 := ⟨r - 1, by omega⟩
  unfold assignBottomRow
  rw [List.range_succ, List.map_append]
  simp only [Nat.add_sub_cancel]
  congr 1
  · apply List.ext_getElem
    · simp
    · intro i hi1 hi2
      simp only [List.getElem_map, List.getElem_range, List.getElem_replicate]
      have hin : i < n := by simpa using hi1
      rw [if_neg (by omega)]
  · simp

/-
Step lemmas for the staircase loop.
-/

lemma staircaseLoop_zero (prob : ProblemOracle) (solver : ℕ → Mat → TNTOutcome)
    (eigTime : ℕ → ℚ) (opts : SESyncOpts) (r : ℕ) (Y : Mat) (res : SESyncResult) :
    staircaseLoop prob solver eigTime opts 0 r Y res = (res, r) := rfl

lemma staircaseLoop_eig_none (prob : ProblemOracle) (solver : ℕ → Mat → TNTOutcome)
    (eigTime : ℕ → ℚ) (opts : SESyncOpts) (fuel r : ℕ) (Y : Mat) (res : SESyncResult)
    (hme : prob.min_eig r (solver r Y).x opts.max_eig_iterations
        opts.min_eig_num_tol opts.num_Lanczos_vectors = none) :
    staircaseLoop prob solver eigTime opts (fuel + 1) r Y res =
      ({ recordSolve prob r (solver r Y) res with
          status := SESyncStatus.EIG_IMPRECISION }, r) := by
  simp only [staircaseLoop, hme]

lemma staircaseLoop_global (prob : ProblemOracle) (solver : ℕ → Mat → TNTOutcome)
    (eigTime : ℕ → ℚ) (opts : SESyncOpts) (fuel r : ℕ) (Y : Mat) (res : SESyncResult)
    (lam : ℚ) (v : List ℚ)
    (hme : prob.min_eig r (solver r Y).x opts.max_eig_iterations
        opts.min_eig_num_tol opts.num_Lanczos_vectors = some (lam, v))
    (hlt : -opts.min_eig_num_tol < lam) :
    staircaseLoop prob solver eigTime opts (fuel + 1) r Y res =
      ({ recordEig eigTime r lam v (recordSolve prob r (solver r Y) res) with
          status := SESyncStatus.GLOBAL_OPT }, r) := by
  simp only [staircaseLoop, hme, if_pos hlt]

lemma staircaseLoop_escape_some (prob : ProblemOracle) (solver : ℕ → Mat → TNTOutcome)
    (eigTime : ℕ → ℚ) (opts : SESyncOpts) (fuel r : ℕ) (Y : Mat) (res : SESyncResult)
    (lam : ℚ) (v : List ℚ) (Yp : Mat)
    (hme : prob.min_eig r (solver r Y).x opts.max_eig_iterations
        opts.min_eig_num_tol opts.num_Lanczos_vectors = some (lam, v))
    (hlt : ¬(-opts.min_eig_num_tol < lam))
    (hesc : escape_saddle prob (r + 1) (solver r Y).x lam v opts.grad_norm_tol = some Yp) :
    staircaseLoop prob solver eigTime opts (fuel + 1) r Y res =
      staircaseLoop prob solver eigTime opts fuel (r + 1) Yp
        (recordEig eigTime r lam v (recordSolve prob r (solver r Y) res)) := by
  simp only [staircaseLoop, hme, if_neg hlt, hesc]

lemma staircaseLoop_escape_none (prob : ProblemOracle) (solver : ℕ → Mat → TNTOutcome)
    (eigTime : ℕ → ℚ) (opts : SESyncOpts) (fuel r : ℕ) (Y : Mat) (res : SESyncResult)
    (lam : ℚ) (v : List ℚ)
    (hme : prob.min_eig r (solver r Y).x opts.max_eig_iterations
        opts.min_eig_num_tol opts.num_Lanczos_vectors = some (lam, v))
    (hlt : ¬(-opts.min_eig_num_tol < lam))
    (hesc : escape_saddle prob (r + 1) (solver r Y).x lam v opts.grad_norm_tol = none) :
    staircaseLoop prob solver eigTime opts (fuel + 1) r Y res =
      ({ recordEig eigTime r lam v (recordSolve prob r (solver r Y) res) with
          status := SESyncStatus.SADDLE_POINT }, r + 1) := by
  simp only [staircaseLoop, hme, if_neg hlt, hesc]

/-- Main invariant of the staircase loop: starting from a result record in the
default RS_ITER_LIMIT state, the loop terminates with a status that records
its cause.  RS_ITER_LIMIT means the full rank budget was solved;
EIG_IMPRECISION means the eigenvalue computation at the final iterate did not
converge; GLOBAL_OPT means it converged with eigenvalue above the negated
tolerance; SADDLE_POINT means it converged below the tolerance and the escape
from the saddle failed, after the rank had been advanced. -/
lemma staircase_cases (prob : ProblemOracle) (solver : ℕ → Mat → TNTOutcome)
    (eigTime : ℕ → ℚ) (opts : SESyncOpts) :
    ∀ fuel r Y res out rf, res.status = SESyncStatus.RS_ITER_LIMIT →
      staircaseLoop prob solver eigTime opts fuel r Y res = (out, rf) →
      ((out.status = SESyncStatus.RS_ITER_LIMIT →
          out.function_values.length = res.function_values.length + fuel) ∧
       (out.status = SESyncStatus.EIG_IMPRECISION →
          prob.min_eig rf out.Yopt opts.max_eig_iterations opts.min_eig_num_tol
            opts.num_Lanczos_vectors = none) ∧
       (out.status = SESyncStatus.GLOBAL_OPT →
          prob.min_eig rf out.Yopt opts.max_eig_iterations opts.min_eig_num_tol
              opts.num_Lanczos_vectors = some (out.lambda_min, out.v_min) ∧
          -opts.min_eig_num_tol < out.lambda_min) ∧
       (out.status = SESyncStatus.SADDLE_POINT →
          prob.min_eig (rf - 1) out.Yopt opts.max_eig_iterations opts.min_eig_num_tol
              opts.num_Lanczos_vectors = some (out.lambda_min, out.v_min) ∧
          ¬(-opts.min_eig_num_tol < out.lambda_min) ∧
          escape_saddle prob rf out.Yopt out.lambda_min out.v_min
            opts.grad_norm_tol = none)) := by
  intro fuel
  induction fuel with
  | zero =>
    intro r Y res out rf hres heq
    rw [staircaseLoop_zero] at heq
    injection heq with h1 h2
    subst h1; subst h2
    refine ⟨fun _ => by omega, fun h => ?_, fun h => ?_, fun h => ?_⟩
    · rw [hres] at h; exact absurd h (by decide)
    · rw [hres] at h; exact absurd h (by decide)
    · rw [hres] at h; exact absurd h (by decide)
  | succ n ih =>
    intro r Y res out rf hres heq
    rcases hme : prob.min_eig r (solver r Y).x opts.max_eig_iterations
        opts.min_eig_num_tol opts.num_Lanczos_vectors with _ | ⟨lam, v⟩
    · rw [staircaseLoop_eig_none prob solver eigTime opts n r Y res hme] at heq
      injection heq with h1 h2
      subst h1; subst h2
      refine ⟨fun h => ?_, fun _ => ?_, fun h => ?_, fun h => ?_⟩
      · simp at h
      · simpa [recordSolve] using hme
      · simp at h
      · simp at h
    · by_cases hlt : -opts.min_eig_num_tol < lam
      · rw [staircaseLoop_global prob solver eigTime opts n r Y res lam v hme hlt] at heq
        injection heq with h1 h2
        subst h1; subst h2
        refine ⟨fun h => ?_, fun h => ?_, fun _ => ?_, fun h => ?_⟩
        · simp at h
        · simp at h
        · constructor
          · simpa [recordEig, recordSolve] using hme
          · simpa [recordEig, recordSolve] using hlt
        · simp at h
      · rcases hesc : escape_saddle prob (r + 1) (solver r Y).x lam v
            opts.grad_norm_tol with _ | Yp
        · rw [staircaseLoop_escape_none prob solver eigTime opts n r Y res lam v
            hme hlt hesc] at heq
          injection heq with h1 h2
          subst h1; subst h2
          refine ⟨fun h => ?_, fun h => ?_, fun h => ?_, fun _ => ?_⟩
          · simp at h
          · simp at h
          · simp at h
          · refine ⟨?_, ?_, ?_⟩
            · simpa [recordEig, recordSolve] using hme
            · simpa [recordEig, recordSolve] using hlt
            · simpa [recordEig, recordSolve] using hesc
        · rw [staircaseLoop_escape_some prob solver eigTime opts n r Y res lam v Yp
            hme hlt hesc] at heq
          have hres2 : (recordEig eigTime r lam v
              (recordSolve prob r (solver r Y) res)).status = SESyncStatus.RS_ITER_LIMIT := by
            simpa [recordEig, recordSolve] using hres
          have hind := ih (r + 1) Yp _ out rf hres2 heq
          refine ⟨fun h => ?_, hind.2.1, hind.2.2.1, hind.2.2.2⟩
          have h1 := hind.1 h
          simp only [recordEig, recordSolve, List.length_append, List.length_singleton] at h1
          omega

/-- Length invariant of the loop traces: the three solver traces stay equal in
length, the two eigenvalue traces stay equal in length, and the eigenvalue
traces fall exactly one short of the solver traces precisely on an
EIG_IMPRECISION exit. -/
lemma staircase_lengths (prob : ProblemOracle) (solver : ℕ → Mat → TNTOutcome)
    (eigTime : ℕ → ℚ) (opts : SESyncOpts) :
    ∀ fuel r Y res out rf,
      res.function_values.length = res.gradient_norms.length →
      res.gradient_norms.length = res.elapsed_optimization_times.length →
      res.minimum_eigenvalues.length = res.minimum_eigenvalue_computation_times.length →
      res.minimum_eigenvalues.length = res.function_values.length →
      res.status ≠ SESyncStatus.EIG_IMPRECISION →
      staircaseLoop prob solver eigTime opts fuel r Y res = (out, rf) →
      (out.function_values.length = out.gradient_norms.length ∧
       out.gradient_norms.length = out.elapsed_optimization_times.length ∧
       out.minimum_eigenvalues.length = out.minimum_eigenvalue_computation_times.length ∧
       (out.status = SESyncStatus.EIG_IMPRECISION →
          out.minimum_eigenvalues.length + 1 = out.function_values.length) ∧
       (out.status ≠ SESyncStatus.EIG_IMPRECISION →
          out.minimum_eigenvalues.length = out.function_values.length)) := by
  intro fuel
  induction fuel with
  | zero =>
    intro r Y res out rf g1 g2 g3 g4 g5 heq
    rw [staircaseLoop_zero] at heq
    injection heq with h1 h2
    subst h1; subst h2
    exact ⟨g1, g2, g3, fun h => absurd h g5, fun _ => g4⟩
  | succ n ih =>
    intro r Y res out rf g1 g2 g3 g4 g5 heq
    rcases hme : prob.min_eig r (solver r Y).x opts.max_eig_iterations
        opts.min_eig_num_tol opts.num_Lanczos_vectors with _ | ⟨lam, v⟩
    · rw [staircaseLoop_eig_none prob solver eigTime opts n r Y res hme] at heq
      injection heq with h1 h2
      subst h1; subst h2
      refine ⟨?_, ?_, ?_, fun _ => ?_, fun h => absurd rfl h⟩
      · simp only [recordSolve, List.length_append, List.length_singleton]; omega
      · simp only [recordSolve, List.length_append, List.length_singleton]; omega
      · simp only [recordSolve]; omega
      · simp only [recordSolve, List.length_append, List.length_singleton]; omega
    · by_cases hlt : -opts.min_eig_num_tol < lam
      · rw [staircaseLoop_global prob solver eigTime opts n r Y res lam v hme hlt] at heq
        injection heq with h1 h2
        subst h1; subst h2
        refine ⟨?_, ?_, ?_, fun h => absurd h (by simp), fun _ => ?_⟩
        · simp only [recordEig, recordSolve, List.length_append, List.length_singleton]; omega
        · simp only [recordEig, recordSolve, List.length_append, List.length_singleton]; omega
        · simp only [recordEig, recordSolve, List.length_append, List.length_singleton]; omega
        · simp only [recordEig, recordSolve, List.length_append, List.length_singleton]; omega
      · rcases hesc : escape_saddle prob (r + 1) (solver r Y).x lam v
            opts.grad_norm_tol with _ | Yp
        · rw [staircaseLoop_escape_none prob solver eigTime opts n r Y res lam v
            hme hlt hesc] at heq
          injection heq with h1 h2
          subst h1; subst h2
          refine ⟨?_, ?_, ?_, fun h => absurd h (by simp), fun _ => ?_⟩
          · simp only [recordEig, recordSolve, List.length_append, List.length_singleton]; omega
          · simp only [recordEig, recordSolve, List.length_append, List.length_singleton]; omega
          · simp only [recordEig, recordSolve, List.length_append, List.length_singleton]; omega
          · simp only [recordEig, recordSolve, List.length_append, List.length_singleton]; omega
        · rw [staircaseLoop_escape_some prob solver eigTime opts n r Y res lam v Yp
            hme hlt hesc] at heq
          apply ih (r + 1) Yp _ out rf _ _ _ _ _ heq
          · simp only [recordEig, recordSolve, List.length_append, List.length_singleton]; omega
          · simp only [recordEig, recordSolve, List.length_append, List.length_singleton]; omega
          · simp only [recordEig, recordSolve, List.length_append, List.length_singleton]; omega
          · simp only [recordEig, recordSolve, List.length_append, List.length_singleton]; omega
          · simpa [recordEig, recordSolve] using g5

/-
Evaluation of a concrete run on the degenerate oracle.
-/

/-- On the constant-zero objective, the saddle escape fails: the very first
trial step already sits at the alpha_min floor and is rejected. -/
lemma cEscapeFails :
    escape_saddle cProbFail 2 [[1]] (-1) [1] cOptsFail.grad_norm_tol = none := by
  rw [escape_saddle_none_iff]
  refine ⟨0, ?_, ?_, ?_⟩
  · show escapeAlpha0 cOptsFail.grad_norm_tol (-1) / 2 ^ (0 + 1) ≤ alpha_min
    norm_num [escapeAlpha0, alpha_min, cOptsFail]
  · intro j hj; omega
  · intro j hj
    have hj0 : j = 0 := by omega
    subst hj0
    simp [escapeAccept, cProbFail]

/-- The full run on the degenerate oracle: the first certificate reports
eigenvalue -1 which exactly equals the negated tolerance, the escape fails,
and the controller stops with SADDLE_POINT at problem rank 2. -/
lemma cRunFail_eval :
    SESyncFull cProbFail cSolver cTime cOptsFail [[1]] =
      ({ status := SESyncStatus.SADDLE_POINT
         Yopt := [[1]]
         SDPval := 0
         gradnorm := 0
         lambda_min := -1
         v_min := [1]
         function_values := [[0]]
         gradient_norms := [[0]]
         elapsed_optimization_times := [[0]]
         minimum_eigenvalues := [-1]
         minimum_eigenvalue_computation_times := [0]
         xhat := []
         Fxhat := 0 }, 2) := by
  have hinit : initialIterate cProbFail cOptsFail [[1]] = [[1]] := by
    simp [initialIterate, matSize]
  have hme : cProbFail.min_eig 1 (cSolver 1 [[1]]).x cOptsFail.max_eig_iterations
      cOptsFail.min_eig_num_tol cOptsFail.num_Lanczos_vectors = some (-1, [1]) := rfl
  have hlt : ¬(-cOptsFail.min_eig_num_tol < (-1 : ℚ)) := by
    norm_num [cOptsFail]
  have hesc : escape_saddle cProbFail (1 + 1) (cSolver 1 [[1]]).x (-1) [1]
      cOptsFail.grad_norm_tol = none := cEscapeFails
  have hstep := staircaseLoop_escape_none cProbFail cSolver cTime cOptsFail 2 1 [[1]]
    initResult (-1) [1] hme hlt hesc
  unfold SESyncFull
  rw [show cOptsFail.rmax + 1 - cOptsFail.r0 = 2 + 1 from rfl,
    show cOptsFail.r0 = 1 from rfl, hinit, hstep]
  simp [recordEig, recordSolve, initResult, cProbFail, cSolver, cTime,
    blockSimplified, cOptsFail]

/-
The loop never reads the chordal_initialization and random_sample fields of
the problem oracle; these are consulted only by initialIterate.
-/

lemma escape_saddle_fields (prob : ProblemOracle) (c rs : Mat) (prank : ℕ)
    (Y : Mat) (lam : ℚ) (v : List ℚ) (tol : ℚ) :
    escape_saddle { prob with chordal_initialization := c, random_sample := rs }
        prank Y lam v tol = escape_saddle prob prank Y lam v tol := rfl

lemma staircaseLoop_fields (prob : ProblemOracle) (c rs : Mat)
    (solver : ℕ → Mat → TNTOutcome) (eigTime : ℕ → ℚ) (opts : SESyncOpts) :
    ∀ fuel r Y res,
      staircaseLoop { prob with chordal_initialization := c, random_sample := rs }
          solver eigTime opts fuel r Y res =
        staircaseLoop prob solver eigTime opts fuel r Y res := by
  intro fuel
  induction fuel with
  | zero => intro r Y res; rfl
  | succ n ih =>
    intro r Y res
    rcases hme : prob.min_eig r (solver r Y).x opts.max_eig_iterations
        opts.min_eig_num_tol opts.num_Lanczos_vectors with _ | ⟨lam, v⟩
    · exact (staircaseLoop_eig_none
        { prob with chordal_initialization := c, random_sample := rs }
        solver eigTime opts n r Y res hme).trans
        (staircaseLoop_eig_none prob solver eigTime opts n r Y res hme).symm
    · by_cases hlt : -opts.min_eig_num_tol < lam
      · exact (staircaseLoop_global
          { prob with chordal_initialization := c, random_sample := rs }
          solver eigTime opts n r Y res lam v hme hlt).trans
          (staircaseLoop_global prob solver eigTime opts n r Y res lam v hme hlt).symm
      · rcases hesc : escape_saddle prob (r + 1) (solver r Y).x lam v
            opts.grad_norm_tol with _ | Yp
        · exact (staircaseLoop_escape_none
            { prob with chordal_initialization := c, random_sample := rs }
            solver eigTime opts n r Y res lam v hme hlt hesc).trans
            (staircaseLoop_escape_none prob solver eigTime opts n r Y res lam v
              hme hlt hesc).symm
        · exact ((staircaseLoop_escape_some
            { prob with chordal_initialization := c, random_sample := rs }
            solver eigTime opts n r Y res lam v Yp hme hlt hesc).trans
            (ih (r + 1) Yp _)).trans
            (staircaseLoop_escape_some prob solver eigTime opts n r Y res lam v Yp
              hme hlt hesc).symm

/-
Claim theorems.
-/

/-- Claim C1: every invocation of SESync returns one of the four terminal
statuses, and the status records the termination cause: EIG_IMPRECISION comes
from a non-converged eigenvalue computation at the final iterate, GLOBAL_OPT
from a converged certificate whose eigenvalue beats the negated tolerance,
SADDLE_POINT from a converged certificate below the tolerance followed by a
failed saddle escape, and RS_ITER_LIMIT from exhausting the full rank budget
r0..rmax (one solver trace entry per rank) without any of the former. -/
theorem C1_terminal_status (prob : ProblemOracle) (solver : ℕ → Mat → TNTOutcome)
    (eigTime : ℕ → ℚ) (opts : SESyncOpts) (Y0 : Mat) :
    ((SESyncFull prob solver eigTime opts Y0).1.status = SESyncStatus.GLOBAL_OPT ∨
     (SESyncFull prob solver eigTime opts Y0).1.status = SESyncStatus.EIG_IMPRECISION ∨
     (SESyncFull prob solver eigTime opts Y0).1.status = SESyncStatus.SADDLE_POINT ∨
     (SESyncFull prob solver eigTime opts Y0).1.status = SESyncStatus.RS_ITER_LIMIT) ∧
    ((SESyncFull prob solver eigTime opts Y0).1.status = SESyncStatus.RS_ITER_LIMIT →
      (SESyncFull prob solver eigTime opts Y0).1.function_values.length =
        opts.rmax + 1 - opts.r0) ∧
    ((SESyncFull prob solver eigTime opts Y0).1.status = SESyncStatus.EIG_IMPRECISION →
      prob.min_eig (SESyncFull prob solver eigTime opts Y0).2
        (SESyncFull prob solver eigTime opts Y0).1.Yopt opts.max_eig_iterations
        opts.min_eig_num_tol opts.num_Lanczos_vectors = none) ∧
    ((SESyncFull prob solver eigTime opts Y0).1.status = SESyncStatus.GLOBAL_OPT →
      prob.min_eig (SESyncFull prob solver eigTime opts Y0).2
          (SESyncFull prob solver eigTime opts Y0).1.Yopt opts.max_eig_iterations
          opts.min_eig_num_tol opts.num_Lanczos_vectors =
        some ((SESyncFull prob solver eigTime opts Y0).1.lambda_min,
          (SESyncFull prob solver eigTime opts Y0).1.v_min) ∧
      -opts.min_eig_num_tol < (SESyncFull prob solver eigTime opts Y0).1.lambda_min) ∧
    ((SESyncFull prob solver eigTime opts Y0).1.status = SESyncStatus.SADDLE_POINT →
      prob.min_eig ((SESyncFull prob solver eigTime opts Y0).2 - 1)
          (SESyncFull prob solver eigTime opts Y0).1.Yopt opts.max_eig_iterations
          opts.min_eig_num_tol opts.num_Lanczos_vectors =
        some ((SESyncFull prob solver eigTime opts Y0).1.lambda_min,
          (SESyncFull prob solver eigTime opts Y0).1.v_min) ∧
      ¬(-opts.min_eig_num_tol < (SESyncFull prob solver eigTime opts Y0).1.lambda_min) ∧
      escape_saddle prob (SESyncFull prob solver eigTime opts Y0).2
        (SESyncFull prob solver eigTime opts Y0).1.Yopt
        (SESyncFull prob solver eigTime opts Y0).1.lambda_min
        (SESyncFull prob solver eigTime opts Y0).1.v_min
        opts.grad_norm_tol = none) := by
  rcases hl : staircaseLoop prob solver eigTime opts (opts.rmax + 1 - opts.r0) opts.r0
      (initialIterate prob opts Y0) initResult with ⟨res, rf⟩
  have hfull : SESyncFull prob solver eigTime opts Y0 =
      ({ res with
          xhat := prob.round_solution rf res.Yopt
          Fxhat :=
            if opts.formulation = Formulation.Simplified then
              prob.evaluate_objective rf
                (blockSimplified prob (prob.round_solution rf res.Yopt))
            else
              prob.evaluate_objective rf (prob.round_solution rf res.Yopt) }, rf) := by
    unfold SESyncFull
    rw [hl]
  have hc := staircase_cases prob solver eigTime opts (opts.rmax + 1 - opts.r0)
    opts.r0 (initialIterate prob opts Y0) initResult res rf rfl hl
  rw [hfull]
  refine ⟨?_, fun h => ?_, fun h => ?_, fun h => ?_, fun h => ?_⟩
  · rcases hs : res.status with _ | _ | _ | _ <;> simp [hs]
  · have := hc.1 (by simpa using h)
    simpa [initResult] using this
  · have := hc.2.1 (by simpa using h)
    simpa using this
  · have := hc.2.2.1 (by simpa using h)
    simpa using this
  · have := hc.2.2.2 (by simpa using h)
    simpa using this

/-- Claim C9: after every invocation, the objective-value, gradient-norm and
elapsed-time traces have equal lengths, the minimum-eigenvalue and
eigenvalue-time traces have equal lengths, and the eigenvalue traces are
exactly one entry shorter than the solver traces on EIG_IMPRECISION
termination and of equal length for every other status. -/
theorem C9_trace_lengths (prob : ProblemOracle) (solver : ℕ → Mat → TNTOutcome)
    (eigTime : ℕ → ℚ) (opts : SESyncOpts) (Y0 : Mat) :
    (SESyncFull prob solver eigTime opts Y0).1.function_values.length =
      (SESyncFull prob solver eigTime opts Y0).1.gradient_norms.length ∧
    (SESyncFull prob solver eigTime opts Y0).1.gradient_norms.length =
      (SESyncFull prob solver eigTime opts Y0).1.elapsed_optimization_times.length ∧
    (SESyncFull prob solver eigTime opts Y0).1.minimum_eigenvalues.length =
      (SESyncFull prob solver eigTime opts Y0).1.minimum_eigenvalue_computation_times.length ∧
    ((SESyncFull prob solver eigTime opts Y0).1.status = SESyncStatus.EIG_IMPRECISION →
      (SESyncFull prob solver eigTime opts Y0).1.minimum_eigenvalues.length + 1 =
        (SESyncFull prob solver eigTime opts Y0).1.function_values.length) ∧
    ((SESyncFull prob solver eigTime opts Y0).1.status ≠ SESyncStatus.EIG_IMPRECISION →
      (SESyncFull prob solver eigTime opts Y0).1.minimum_eigenvalues.length =
        (SESyncFull prob solver eigTime opts Y0).1.function_values.length) := by
  rcases hl : staircaseLoop prob solver eigTime opts (opts.rmax + 1 - opts.r0) opts.r0
      (initialIterate prob opts Y0) initResult with ⟨res, rf⟩
  have hfull : SESyncFull prob solver eigTime opts Y0 =
      ({ res with
          xhat := prob.round_solution rf res.Yopt
          Fxhat :=
            if opts.formulation = Formulation.Simplified then
              prob.evaluate_objective rf
                (blockSimplified prob (prob.round_solution rf res.Yopt))
            else
              prob.evaluate_objective rf (prob.round_solution rf res.Yopt) }, rf) := by
    unfold SESyncFull
    rw [hl]
  have hc := staircase_lengths prob solver eigTime opts (opts.rmax + 1 - opts.r0)
    opts.r0 (initialIterate prob opts Y0) initResult res rf rfl rfl rfl rfl
    (by simp [initResult]) hl
  rw [hfull]
  refine ⟨by simpa using hc.1, by simpa using hc.2.1, by simpa using hc.2.2.1,
    fun h => ?_, fun h => ?_⟩
  · exact hc.2.2.2.1 (by simpa using h)
  · exact hc.2.2.2.2 (by simpa using h)

/-- Claim C6: for every run and every terminal status, the rounded solution
equals round_solution applied to the final relaxed iterate, and the rounded
objective value is the objective at the rounded solution, taken at its
rotation block under the Simplified formulation and at the full matrix under
the Explicit formulation. -/
theorem C6_rounding (prob : ProblemOracle) (solver : ℕ → Mat → TNTOutcome)
    (eigTime : ℕ → ℚ) (opts : SESyncOpts) (Y0 : Mat) :
    (SESyncFull prob solver eigTime opts Y0).1.xhat =
      prob.round_solution (SESyncFull prob solver eigTime opts Y0).2
        (SESyncFull prob solver eigTime opts Y0).1.Yopt ∧
    (opts.formulation = Formulation.Simplified →
      (SESyncFull prob solver eigTime opts Y0).1.Fxhat =
        prob.evaluate_objective (SESyncFull prob solver eigTime opts Y0).2
          (blockSimplified prob (SESyncFull prob solver eigTime opts Y0).1.xhat)) ∧
    (opts.formulation = Formulation.Explicit →
      (SESyncFull prob solver eigTime opts Y0).1.Fxhat =
        prob.evaluate_objective (SESyncFull prob solver eigTime opts Y0).2
          (SESyncFull prob solver eigTime opts Y0).1.xhat) := by
  rcases hl : staircaseLoop prob solver eigTime opts (opts.rmax + 1 - opts.r0) opts.r0
      (initialIterate prob opts Y0) initResult with ⟨res, rf⟩
  have hfull : SESyncFull prob solver eigTime opts Y0 =
      ({ res with
          xhat := prob.round_solution rf res.Yopt
          Fxhat :=
            if opts.formulation = Formulation.Simplified then
              prob.evaluate_objective rf
                (blockSimplified prob (prob.round_solution rf res.Yopt))
            else
              prob.evaluate_objective rf (prob.round_solution rf res.Yopt) }, rf) := by
    unfold SESyncFull
    rw [hl]
  rw [hfull]
  refine ⟨rfl, fun h => ?_, fun h => ?_⟩
  · simp [h]
  · rw [if_neg (by rw [h]; decide)]

/-- Claim C7: the initial iterate is a nonempty user-supplied Y0 verbatim, in
which case the run is independent of the chordal-initialization and
random-sample operations of the problem (no initialization call is made);
otherwise it is the chordal initialization when the option is enabled and a
random sample when it is not. -/
theorem C7_initial_iterate (prob : ProblemOracle) (solver : ℕ → Mat → TNTOutcome)
    (eigTime : ℕ → ℚ) (opts : SESyncOpts) (Y0 c rs : Mat) :
    (matSize Y0 ≠ 0 → initialIterate prob opts Y0 = Y0 ∧
      SESyncFull { prob with chordal_initialization := c, random_sample := rs }
          solver eigTime opts Y0 = SESyncFull prob solver eigTime opts Y0) ∧
    (matSize Y0 = 0 → opts.use_chordal_initialization = true →
      initialIterate prob opts Y0 = prob.chordal_initialization) ∧
    (matSize Y0 = 0 → opts.use_chordal_initialization = false →
      initialIterate prob opts Y0 = prob.random_sample) := by
  refine ⟨fun h => ⟨?_, ?_⟩, fun h hc => ?_, fun h hc => ?_⟩
  · simp [initialIterate, h]
  · have hii : initialIterate
        { prob with chordal_initialization := c, random_sample := rs } opts Y0 = Y0 := by
      simp [initialIterate, h]
    have hii2 : initialIterate prob opts Y0 = Y0 := by
      simp [initialIterate, h]
    unfold SESyncFull
    rw [hii, hii2, staircaseLoop_fields]
    rfl
  · simp [initialIterate, h, hc]
  · simp [initialIterate, h, hc]

/-- Claim C8: when r0 exceeds rmax the staircase loop body never runs: the
result keeps the pre-set RS_ITER_LIMIT status, every per-rank trace is empty,
the iterate Yopt keeps its default empty value, the final relaxation rank is
the r0 set during construction, the rounding step is still applied to the
empty iterate, and the run is independent of the solver, timing and
eigenvalue oracles. -/
theorem C8_empty_staircase (prob : ProblemOracle) (solver : ℕ → Mat → TNTOutcome)
    (eigTime : ℕ → ℚ) (opts : SESyncOpts) (Y0 : Mat)
    (h : opts.rmax < opts.r0) :
    (SESyncFull prob solver eigTime opts Y0).1.status = SESyncStatus.RS_ITER_LIMIT ∧
    (SESyncFull prob solver eigTime opts Y0).1.function_values = [] ∧
    (SESyncFull prob solver eigTime opts Y0).1.gradient_norms = [] ∧
    (SESyncFull prob solver eigTime opts Y0).1.elapsed_optimization_times = [] ∧
    (SESyncFull prob solver eigTime opts Y0).1.minimum_eigenvalues = [] ∧
    (SESyncFull prob solver eigTime opts Y0).1.minimum_eigenvalue_computation_times = [] ∧
    (SESyncFull prob solver eigTime opts Y0).1.Yopt = [] ∧
    (SESyncFull prob solver eigTime opts Y0).2 = opts.r0 ∧
    (SESyncFull prob solver eigTime opts Y0).1.xhat =
      prob.round_solution opts.r0 [] ∧
    (∀ (solver2 : ℕ → Mat → TNTOutcome) (eigTime2 : ℕ → ℚ),
      SESyncFull prob solver2 eigTime2 opts Y0 = SESyncFull prob solver eigTime opts Y0) ∧
    (∀ me2, SESyncFull { prob with min_eig := me2 } solver eigTime opts Y0 =
      SESyncFull prob solver eigTime opts Y0) := by
  have hf : opts.rmax + 1 - opts.r0 = 0 := by omega
  have hrun : ∀ (s2 : ℕ → Mat → TNTOutcome) (e2 : ℕ → ℚ),
      SESyncFull prob s2 e2 opts Y0 =
        ({ initResult with
            xhat := prob.round_solution opts.r0 initResult.Yopt
            Fxhat :=
              if opts.formulation = Formulation.Simplified then
                prob.evaluate_objective opts.r0
                  (blockSimplified prob (prob.round_solution opts.r0 initResult.Yopt))
              else
                prob.evaluate_objective opts.r0
                  (prob.round_solution opts.r0 initResult.Yopt) }, opts.r0) := by
    intro s2 e2
    unfold SESyncFull
    rw [hf, staircaseLoop_zero]
  rw [hrun solver eigTime]
  refine ⟨rfl, rfl, rfl, rfl, rfl, rfl, rfl, rfl, rfl, fun s2 e2 => ?_, fun me2 => ?_⟩
  · rw [hrun s2 e2]
  · have hrun2 : SESyncFull { prob with min_eig := me2 } solver eigTime opts Y0 =
        ({ initResult with
            xhat := prob.round_solution opts.r0 initResult.Yopt
            Fxhat :=
              if opts.formulation = Formulation.Simplified then
                prob.evaluate_objective opts.r0
                  (blockSimplified prob (prob.round_solution opts.r0 initResult.Yopt))
              else
                prob.evaluate_objective opts.r0
                  (prob.round_solution opts.r0 initResult.Yopt) }, opts.r0) := by
      unfold SESyncFull
      rw [hf, staircaseLoop_zero]
      rfl
    rw [hrun2]

/-- Claim C2 (amended): when the certificate at rank r converges with an
eigenvalue failing the test, the controller advances the problem relaxation
rank to r + 1 BEFORE invoking the saddle escape; on success it continues at
rank r + 1 from the returned augmented point, and on failure it stops with
status SADDLE_POINT while the problem relaxation rank remains r + 1 (it is
not restored to r). -/
theorem C2_rank_advance (prob : ProblemOracle) (solver : ℕ → Mat → TNTOutcome)
    (eigTime : ℕ → ℚ) (opts : SESyncOpts) (fuel r : ℕ) (Y : Mat) (res : SESyncResult)
    (lam : ℚ) (v : List ℚ)
    (hme : prob.min_eig r (solver r Y).x opts.max_eig_iterations
        opts.min_eig_num_tol opts.num_Lanczos_vectors = some (lam, v))
    (hlt : ¬(-opts.min_eig_num_tol < lam)) :
    (∀ Yp, escape_saddle prob (r + 1) (solver r Y).x lam v opts.grad_norm_tol = some Yp →
        staircaseLoop prob solver eigTime opts (fuel + 1) r Y res =
          staircaseLoop prob solver eigTime opts fuel (r + 1) Yp
            (recordEig eigTime r lam v (recordSolve prob r (solver r Y) res))) ∧
    (escape_saddle prob (r + 1) (solver r Y).x lam v opts.grad_norm_tol = none →
        staircaseLoop prob solver eigTime opts (fuel + 1) r Y res =
          ({ recordEig eigTime r lam v (recordSolve prob r (solver r Y) res) with
              status := SESyncStatus.SADDLE_POINT }, r + 1)) := by
  constructor
  · intro Yp hesc
    exact staircaseLoop_escape_some prob solver eigTime opts fuel r Y res lam v Yp
      hme hlt hesc
  · intro hesc
    exact staircaseLoop_escape_none prob solver eigTime opts fuel r Y res lam v
      hme hlt hesc

/-- Claim C2, counterexample to the claim as stated: a concrete run in which
the saddle escape fails, the controller stops with SADDLE_POINT, and the
problem relaxation rank is NOT left unchanged at the rank r0 = 1 at which the
escape was attempted; it ends at 2 = r0 + 1. -/
theorem C2_counterexample :
    (SESyncFull cProbFail cSolver cTime cOptsFail [[1]]).1.status =
      SESyncStatus.SADDLE_POINT ∧
    (SESyncFull cProbFail cSolver cTime cOptsFail [[1]]).2 ≠ cOptsFail.r0 ∧
    (SESyncFull cProbFail cSolver cTime cOptsFail [[1]]).2 = cOptsFail.r0 + 1 := by
  rw [cRunFail_eval]
  refine ⟨rfl, by decide, rfl⟩

/-- Claim C2, witness: the amended theorem evaluated on the degenerate
oracle at rank 1, where the escape fails and the loop stops at rank 2. -/
theorem C2_rank_advance_witness :
    cProbFail.min_eig 1 (cSolver 1 [[1]]).x cOptsFail.max_eig_iterations
        cOptsFail.min_eig_num_tol cOptsFail.num_Lanczos_vectors = some (-1, [1]) ∧
    ¬(-cOptsFail.min_eig_num_tol < (-1 : ℚ)) ∧
    (escape_saddle cProbFail (1 + 1) (cSolver 1 [[1]]).x (-1) [1]
        cOptsFail.grad_norm_tol = none →
      staircaseLoop cProbFail cSolver cTime cOptsFail (0 + 1) 1 [[1]] initResult =
        ({ recordEig cTime 1 (-1) [1]
            (recordSolve cProbFail 1 (cSolver 1 [[1]]) initResult) with
            status := SESyncStatus.SADDLE_POINT }, 1 + 1)) :=
  ⟨rfl, by norm_num [cOptsFail],
    (C2_rank_advance cProbFail cSolver cTime cOptsFail 0 1 [[1]] initResult (-1) [1]
      rfl (by norm_num [cOptsFail])).2⟩

/-- Claim C3 (amended): at every rank at which the eigenvalue computation
converges, the controller certifies global optimality and stops at that rank
exactly when the reported eigenvalue is STRICTLY greater than the negated
tolerance; the comparison at SESync.cpp line 334 is strict, so the boundary
case lambda = -tol is treated as a saddle, not as a certificate success. -/
theorem C3_certified_global (prob : ProblemOracle) (solver : ℕ → Mat → TNTOutcome)
    (eigTime : ℕ → ℚ) (opts : SESyncOpts) (fuel r : ℕ) (Y : Mat) (res : SESyncResult)
    (lam : ℚ) (v : List ℚ)
    (hme : prob.min_eig r (solver r Y).x opts.max_eig_iterations
        opts.min_eig_num_tol opts.num_Lanczos_vectors = some (lam, v))
    (hlt : -opts.min_eig_num_tol < lam) :
    staircaseLoop prob solver eigTime opts (fuel + 1) r Y res =
      ({ recordEig eigTime r lam v (recordSolve prob r (solver r Y) res) with
          status := SESyncStatus.GLOBAL_OPT }, r) :=
  staircaseLoop_global prob solver eigTime opts fuel r Y res lam v hme hlt

/-- Claim C3, counterexample to the boundary case of the claim as stated: a
concrete run in which the certificate converges with eigenvalue -1 equal to
the negated tolerance -min_eig_num_tol (so lambda is greater than or equal to
the negated tolerance), yet the run does not terminate with GLOBAL_OPT. -/
theorem C3_counterexample :
    (SESyncFull cProbFail cSolver cTime cOptsFail [[1]]).1.minimum_eigenvalues = [-1] ∧
    (SESyncFull cProbFail cSolver cTime cOptsFail [[1]]).1.lambda_min =
      -cOptsFail.min_eig_num_tol ∧
    -cOptsFail.min_eig_num_tol ≤ (SESyncFull cProbFail cSolver cTime cOptsFail [[1]]).1.lambda_min ∧
    (SESyncFull cProbFail cSolver cTime cOptsFail [[1]]).1.status ≠
      SESyncStatus.GLOBAL_OPT := by
  rw [cRunFail_eval]
  refine ⟨rfl, by norm_num [cOptsFail], by norm_num [cOptsFail], by decide⟩

/-- Claim C3, witness: the amended theorem evaluated on an oracle whose
certificate reports eigenvalue 0, strictly above the negated tolerance -1. -/
theorem C3_certified_global_witness :
    cProbGlob.min_eig 1 (cSolver 1 [[1]]).x cOptsFail.max_eig_iterations
        cOptsFail.min_eig_num_tol cOptsFail.num_Lanczos_vectors = some (0, []) ∧
    -cOptsFail.min_eig_num_tol < (0 : ℚ) ∧
    staircaseLoop cProbGlob cSolver cTime cOptsFail (0 + 1) 1 [[1]] initResult =
      ({ recordEig cTime 1 0 [] (recordSolve cProbGlob 1 (cSolver 1 [[1]]) initResult) with
          status := SESyncStatus.GLOBAL_OPT }, 1) :=
  ⟨rfl, by norm_num [cOptsFail],
    C3_certified_global cProbGlob cSolver cTime cOptsFail 0 1 [[1]] initResult 0 []
      rfl (by norm_num [cOptsFail])⟩

/-- Claim C4: for a call to escape_saddle with nonzero lambda, the search
starts from alpha = 200 tol / abs lambda and halves before each retraction,
so the k-th trial step is alpha / 2 ^ (k+1) and the first is 100 tol / abs
lambda; a success returns the retraction at the first trial step passing both
acceptance tests, every earlier trial having been rejected above the floor;
and the search fails exactly when the step reaches the floor alpha_min = 1e-6
with every trial up to and including the floor step rejected. -/
theorem C4_backtracking (prob : ProblemOracle) (prank : ℕ) (Y : Mat)
    (lam : ℚ) (v : List ℚ) (tol : ℚ) (hlam : lam ≠ 0) :
    escapeAlpha0 tol lam = 2 * 100 * tol / |lam| ∧
    escapeAlpha0 tol lam / 2 ^ (0 + 1) = 100 * tol / |lam| ∧
    (∀ Yp, escape_saddle prob prank Y lam v tol = some Yp →
      ∃ k, Yp = escapeTrialPoint prob prank Y v (escapeAlpha0 tol lam / 2 ^ (k + 1)) ∧
        escapeAccept prob prank Y v tol (escapeAlpha0 tol lam / 2 ^ (k + 1)) = true ∧
        ∀ j, j < k →
          escapeAccept prob prank Y v tol (escapeAlpha0 tol lam / 2 ^ (j + 1)) = false ∧
          alpha_min < escapeAlpha0 tol lam / 2 ^ (j + 1)) ∧
    (escape_saddle prob prank Y lam v tol = none ↔
      ∃ K, escapeAlpha0 tol lam / 2 ^ (K + 1) ≤ alpha_min ∧
        (∀ j, j < K → alpha_min < escapeAlpha0 tol lam / 2 ^ (j + 1)) ∧
        (∀ j, j ≤ K →
          escapeAccept prob prank Y v tol (escapeAlpha0 tol lam / 2 ^ (j + 1)) = false)) := by
  refine ⟨rfl, ?_, ?_, ?_⟩
  · show 2 * 100 * tol / |lam| / 2 ^ (0 + 1) = 100 * tol / |lam|
    rw [pow_one]
    ring
  · intro Yp h
    exact escape_saddle_some prob prank Y lam v tol Yp h
  · exact escape_saddle_none_iff prob prank Y lam v tol

/-- Claim C4, witness: the characterization applied to the degenerate oracle
with lambda = -1 and tolerance 1/2. -/
theorem C4_backtracking_witness :
    ((-1 : ℚ) ≠ 0) ∧
    (escapeAlpha0 (1 / 2) (-1) = 2 * 100 * (1 / 2) / |(-1 : ℚ)| ∧
     escapeAlpha0 (1 / 2) (-1) / 2 ^ (0 + 1) = 100 * (1 / 2) / |(-1 : ℚ)| ∧
     (∀ Yp, escape_saddle cProbFail 2 [[1]] (-1) [1] (1 / 2) = some Yp →
       ∃ k, Yp = escapeTrialPoint cProbFail 2 [[1]] [1]
            (escapeAlpha0 (1 / 2) (-1) / 2 ^ (k + 1)) ∧
         escapeAccept cProbFail 2 [[1]] [1] (1 / 2)
            (escapeAlpha0 (1 / 2) (-1) / 2 ^ (k + 1)) = true ∧
         ∀ j, j < k →
           escapeAccept cProbFail 2 [[1]] [1] (1 / 2)
              (escapeAlpha0 (1 / 2) (-1) / 2 ^ (j + 1)) = false ∧
           alpha_min < escapeAlpha0 (1 / 2) (-1) / 2 ^ (j + 1)) ∧
     (escape_saddle cProbFail 2 [[1]] (-1) [1] (1 / 2) = none ↔
       ∃ K, escapeAlpha0 (1 / 2) (-1) / 2 ^ (K + 1) ≤ alpha_min ∧
         (∀ j, j < K → alpha_min < escapeAlpha0 (1 / 2) (-1) / 2 ^ (j + 1)) ∧
         (∀ j, j ≤ K →
           escapeAccept cProbFail 2 [[1]] [1] (1 / 2)
              (escapeAlpha0 (1 / 2) (-1) / 2 ^ (j + 1)) = false))) :=
  ⟨by norm_num, C4_backtracking cProbFail 2 [[1]] (-1) [1] (1 / 2) (by norm_num)⟩

/-- Claim C5: inside escape_saddle at problem rank prank = r + 1 on a point Y
with r rows, the base point of every retraction is Y with one zero row
appended, the tangent direction is zero in all rows except the last, which
holds the eigenvector, and every trial point, whatever the step length, is a
retraction of this one fixed pair. -/
theorem C5_augmented_direction (prob : ProblemOracle) (prank : ℕ) (Y : Mat)
    (v : List ℚ) (hlen : Y.length = prank - 1) (hr : 1 ≤ prank) :
    assignTopRows prank (numCols Y) Y = Y ++ [zeroRow (numCols Y)] ∧
    assignBottomRow prank (numCols Y) v =
      List.replicate (prank - 1) (zeroRow (numCols Y)) ++ [v] ∧
    (∀ a, escapeTrialPoint prob prank Y v a =
      prob.retract prank (Y ++ [zeroRow (numCols Y)])
        (smulMat a (List.replicate (prank - 1) (zeroRow (numCols Y)) ++ [v]))) := by
  refine ⟨assignTopRows_eq_append prank (numCols Y) Y hlen hr,
    assignBottomRow_eq_append prank (numCols Y) v hr, ?_⟩
  intro a
  unfold escapeTrialPoint
  rw [assignTopRows_eq_append prank (numCols Y) Y hlen hr,
    assignBottomRow_eq_append prank (numCols Y) v hr]

/-- Claim C5, witness: the augmentation applied at rank 2 to the one-row
point [[1]] with eigenvector [7]. -/
theorem C5_augmented_direction_witness :
    ([[1]] : Mat).length = 2 - 1 ∧ 1 ≤ 2 ∧
    (assignTopRows 2 (numCols [[1]]) [[1]] = [[1]] ++ [zeroRow (numCols [[1]])] ∧
     assignBottomRow 2 (numCols [[1]]) [7] =
       List.replicate (2 - 1) (zeroRow (numCols [[1]])) ++ [[7]] ∧
     (∀ a, escapeTrialPoint cProbFail 2 [[1]] [7] a =
       cProbFail.retract 2 ([[1]] ++ [zeroRow (numCols [[1]])])
         (smulMat a (List.replicate (2 - 1) (zeroRow (numCols [[1]])) ++ [[7]])))) :=
  ⟨rfl, by omega,
    C5_augmented_direction cProbFail 2 [[1]] [7] rfl (by omega)⟩

/-- Claim C10: under the controller guard that sends a converged certificate
to the saddle escape, namely that the eigenvalue is not strictly above the
negated tolerance, a strictly positive tolerance forces the eigenvalue to be
strictly negative, so the divisor abs lambda in the initial step length of
escape_saddle is strictly positive and the division is recoverable by
multiplying back. -/
theorem C10_escape_divisor (prob : ProblemOracle) (solver : ℕ → Mat → TNTOutcome)
    (eigTime : ℕ → ℚ) (opts : SESyncOpts) (fuel r : ℕ) (Y : Mat) (res : SESyncResult)
    (lam : ℚ) (v : List ℚ)
    (hme : prob.min_eig r (solver r Y).x opts.max_eig_iterations
        opts.min_eig_num_tol opts.num_Lanczos_vectors = some (lam, v))
    (hguard : ¬(-opts.min_eig_num_tol < lam))
    (hpos : 0 < opts.min_eig_num_tol) :
    lam ≤ -opts.min_eig_num_tol ∧ lam < 0 ∧ 0 < |lam| ∧
    escapeAlpha0 opts.grad_norm_tol lam * |lam| = 2 * 100 * opts.grad_norm_tol := by
  have h1 : lam ≤ -opts.min_eig_num_tol := not_lt.mp hguard
  have h2 : lam < 0 := by linarith
  have h3 : 0 < |lam| := abs_pos.mpr (ne_of_lt h2)
  refine ⟨h1, h2, h3, ?_⟩
  show 2 * 100 * opts.grad_norm_tol / |lam| * |lam| = 2 * 100 * opts.grad_norm_tol
  exact div_mul_cancel₀ _ (ne_of_gt h3)

/-- Claim C10, witness: the guard facts evaluated on the degenerate oracle,
where the tolerance is 1 and the reported eigenvalue is -1. -/
theorem C10_escape_divisor_witness :
    cProbFail.min_eig 1 (cSolver 1 [[1]]).x cOptsFail.max_eig_iterations
        cOptsFail.min_eig_num_tol cOptsFail.num_Lanczos_vectors = some (-1, [1]) ∧
    ¬(-cOptsFail.min_eig_num_tol < (-1 : ℚ)) ∧
    0 < cOptsFail.min_eig_num_tol ∧
    ((-1 : ℚ) ≤ -cOptsFail.min_eig_num_tol ∧ (-1 : ℚ) < 0 ∧ 0 < |(-1 : ℚ)| ∧
      escapeAlpha0 cOptsFail.grad_norm_tol (-1) * |(-1 : ℚ)| =
        2 * 100 * cOptsFail.grad_norm_tol) :=
  ⟨rfl, by norm_num [cOptsFail], by norm_num [cOptsFail],
    C10_escape_divisor cProbFail cSolver cTime cOptsFail 0 1 [[1]] initResult (-1) [1]
      rfl (by norm_num [cOptsFail]) (by norm_num [cOptsFail])⟩

/-- Claim C8, witness: the empty staircase evaluated with r0 = 2, rmax = 1 on
the degenerate oracle. -/
theorem C8_empty_staircase_witness :
    cOptsSmall.rmax < cOptsSmall.r0 ∧
    ((SESyncFull cProbFail cSolver cTime cOptsSmall [[1]]).1.status =
        SESyncStatus.RS_ITER_LIMIT ∧
     (SESyncFull cProbFail cSolver cTime cOptsSmall [[1]]).1.function_values = [] ∧
     (SESyncFull cProbFail cSolver cTime cOptsSmall [[1]]).1.gradient_norms = [] ∧
     (SESyncFull cProbFail cSolver cTime cOptsSmall [[1]]).1.elapsed_optimization_times = [] ∧
     (SESyncFull cProbFail cSolver cTime cOptsSmall [[1]]).1.minimum_eigenvalues = [] ∧
     (SESyncFull cProbFail cSolver cTime cOptsSmall [[1]]).1.minimum_eigenvalue_computation_times = [] ∧
     (SESyncFull cProbFail cSolver cTime cOptsSmall [[1]]).1.Yopt = [] ∧
     (SESyncFull cProbFail cSolver cTime cOptsSmall [[1]]).2 = cOptsSmall.r0 ∧
     (SESyncFull cProbFail cSolver cTime cOptsSmall [[1]]).1.xhat =
       cProbFail.round_solution cOptsSmall.r0 [] ∧
     (∀ (solver2 : ℕ → Mat → TNTOutcome) (eigTime2 : ℕ → ℚ),
       SESyncFull cProbFail solver2 eigTime2 cOptsSmall [[1]] =
         SESyncFull cProbFail cSolver cTime cOptsSmall [[1]]) ∧
     (∀ me2, SESyncFull { cProbFail with min_eig := me2 } cSolver cTime cOptsSmall [[1]] =
       SESyncFull cProbFail cSolver cTime cOptsSmall [[1]])) :=
  ⟨by decide,
    C8_empty_staircase cProbFail cSolver cTime cOptsSmall [[1]] (by decide)⟩
